import Mathlib

/-!
Shallow embedding of the mosdef-workflows tutorial notebooks.

The repository consists of linear notebook scripts gluing together a
component builder (mbuild), a force-field typer (foyer), external MD
engines (GROMACS, HOOMD) and trajectory analysis (freud, mdtraj).
This file embeds the straight-line cell code of those notebooks:
the topology-editing cell and the grompp/mdrun subprocess cell of
trappe-propane.ipynb, the box.top writer of charmm-gui-gmx.ipynb, the
grid replication and RDF accumulation cells of the HOOMD notebook, and
the fixed MDP run-control template.  Library operations whose source is
not in the repository (mbuild pattern application, foyer element
inference, freud RDF accumulation) are modelled from the repository's
specification, as marked in their doc comments.
-/

set_option maxRecDepth 10000

namespace MosdefWorkflows

/-- A 3D position with exact rational coordinates. -/
abbrev Vec3 : Type := ℚ × ℚ × ℚ

/-- A single interaction site: name tag plus 3D position
(mirrors mb.Particle, which carries a name and a position). -/
structure Particle where
  name : String
  pos : Vec3
deriving DecidableEq

/-- A hierarchical component flattened to its particle list, with bonds
recorded as index pairs into that list (mirrors mb.Compound: ordered
particles, bond graph, compound name). -/
structure Compound where
  name : String
  particles : List Particle
  bonds : List (Nat × Nat)
deriving DecidableEq

/-! ### Topology-editing cell of trappe-propane.ipynb

Embeds
  particles[0].name = "_" + particles[0].name[1:]
  particles[1].name = "_" + particles[1].name
  particles[2].name = "_" + particles[2].name[1:]
  cmpd.add_bond((particles[0], particles[1]))
  cmpd.add_bond((particles[1], particles[2]))
-/

/-- Rename used on particles 0 and 2: underscore plus the name minus its
first character (`"_" + name[1:]`). -/
def renameDropHead (p : Particle) : Particle :=
  { p with name := "_" ++ p.name.drop 1 }

/-- Rename used on particle 1: underscore prepended to the whole name
(`"_" + name`). -/
def renameKeepAll (p : Particle) : Particle :=
  { p with name := "_" ++ p.name }

/-- Apply the three per-index renames of the cell to the particle list.
The Python cell indexes particles 0, 1 and 2; on a list with fewer than
three particles Python would raise, so the identity fallback branches are
outside the modelled regime. -/
def editNames : List Particle → List Particle
  | p0 :: p1 :: p2 :: rest => renameDropHead p0 :: renameKeepAll p1 :: renameDropHead p2 :: rest
  | other => other

/-- The whole cell: rename particles 0, 1, 2 and add the two sequential
bonds (0,1) and (1,2). -/
def editCell (c : Compound) : Compound :=
  { c with particles := editNames c.particles, bonds := c.bonds ++ [(0, 1), (1, 2)] }

/-- Modelled from the spec: the 3-particle linear propane prototype loaded
from TraPPE_UA_3_propane_monomer1.pdb (the PDB file itself is not in the
repository).  Three united-atom sites on a line, no bonds, compound name
set to Pro by the notebook. -/
def propanePrototype : Compound :=
  { name := "Pro",
    particles :=
      [{ name := "C1", pos := (0, 0, 0) },
       { name := "C2", pos := (13/100, 0, 0) },
       { name := "C3", pos := (26/100, 0, 0) }],
    bonds := [] }

/-! ### Lattice replication (Grid3DPattern cells of the HOOMD notebook) -/

/-- Modelled from the spec: mb.Grid3DPattern(n1, n2, n3) scaled by s
places one point per grid cell; lattice mode places one prototype copy
per grid point. -/
def gridPoints (n1 n2 n3 : Nat) (s : ℚ) : List Vec3 :=
  (List.range n1).flatMap fun i =>
    (List.range n2).flatMap fun j =>
      (List.range n3).map fun k =>
        ((s * i) / n1, (s * j) / n2, (s * k) / n3)

/-- Shift a position by an offset. -/
def shiftVec (v w : Vec3) : Vec3 := (v.1 + w.1, v.2.1 + w.2.1, v.2.2 + w.2.2)

/-- Translate every particle of a compound by an offset; names and bonds
are untouched. -/
def translateCompound (c : Compound) (v : Vec3) : Compound :=
  { c with particles := c.particles.map fun p => { p with pos := shiftVec p.pos v } }

/-- Modelled from the spec: pattern.apply(compound) returns one translated
copy of the prototype per pattern point. -/
def applyPattern (pts : List Vec3) (proto : Compound) : List Compound :=
  pts.map fun pt => translateCompound proto pt

/-- mb.Compound(list_of_copies): concatenate the copies into one flat
compound, reindexing each copy's bonds past the particles of the copies
before it. -/
def combine : List Compound → Compound
  | [] => { name := "Compound", particles := [], bonds := [] }
  | c :: rest =>
    let r := combine rest
    { name := "Compound",
      particles := c.particles ++ r.particles,
      bonds := c.bonds ++ r.bonds.map fun b => (b.1 + c.particles.length, b.2 + c.particles.length) }

/-- The 2×2×2 lattice replication scaled by 0.4 used by the notebooks:
Grid3DPattern(2, 2, 2), scale(0.4), apply, collect into one compound. -/
def replicateGrid (c : Compound) : Compound :=
  combine (applyPattern (gridPoints 2 2 2 (4/10)) c)

/-! ### The fixed MDP run-control template (write_gmx_mdp) -/

/-- The lines of the triple-quoted template string written by
write_gmx_mdp in trappe-propane.ipynb; the written text is these lines
joined by newlines (the first line is empty because the Python string
opens with a newline). -/
def mdpLines : List String :=
  ["",
   "title                     = NVT Equilibration",
   "; Run parameters",
   "integrator                = md        ; leap-frog integrator",
   "nsteps                    = 100000     ; 2 * 5000 = 10ps",
   "dt                        = 0.002     ; 2 fs",
   "",
   "; Output control",
   "nstxout                   = 500       ; Every 1.0 ps",
   "nstvout                   = 500",
   "nstenergy                 = 500",
   "nstlog                    = 500",
   "",
   ";Bond parameters",
   "continuation              = no",
   "constraint_algorithm    = lincs",
   "constraints             =   all-bonds",
   "lincs_iter              = 1",
   "lincs_order             = 4",
   "",
   "; Neighbor searching",
   "cutoff-scheme           = Verlet",
   "nstype                  = grid",
   "nstlist                 = 10",
   "rcoulomb                = 1.4",
   "rvdw                    = 1.4",
   "",
   "; Electrostatics",
   "coulombtype             = PME",
   "pme_order               = 4",
   "fourierspacing          = 0.16",
   "",
   "; Temperature coupling",
   "tcoupl                  = nose-hoover",
   "tc-grps                 = system",
   "tau_t                   = 0.4  ",
   "ref_t                   = 300  ",
   "",
   "; Pressure coupling",
   "pcoupl                 = no",
   "",
   ";Periodic boundary conditions",
   "pbc                     = xyz",
   "",
   ";Dispersion correction",
   "DispCorr                = EnerPres",
   "",
   ";Velocity generation",
   "gen_vel                 = yes",
   "gen_temp                = 300",
   "gen_seed                = -1"]

/-- Join character lists with a separator character between consecutive
lines (character-level intercalate). -/
def joinLines (sep : Char) : List (List Char) → List Char
  | [] => []
  | [l] => l
  | l :: next :: rest => l ++ sep :: joinLines sep (next :: rest)

/-- The exact text written by write_gmx_mdp: the template lines joined by
newlines. -/
def mdpTemplate : String := String.mk (joinLines '\n' (mdpLines.map String.data))

/-- write_gmx_mdp(filename): opens filename and writes the fixed template
text; embedded as the (filename, content) pair of the single write. -/
def writeGmxMdp (filename : String) : String × String := (filename, mdpTemplate)

/-- The run-control content the trappe notebook renders to nvt.mdp. -/
def renderedMdp : String := (writeGmxMdp "nvt.mdp").2

/-- Whitespace test used by the directive parser. -/
def isSpaceChar (c : Char) : Bool := c = ' '

/-- Strip leading and trailing spaces from a character list. -/
def trimChars (l : List Char) : List Char :=
  ((l.dropWhile isSpaceChar).reverse.dropWhile isSpaceChar).reverse

/-- Split a character list at every occurrence of a separator. -/
def splitOnChar (sep : Char) (l : List Char) : List (List Char) :=
  match l with
  | [] => [[]]
  | c :: rest =>
    match splitOnChar sep rest with
    | [] => [[]]
    | cur :: more => if c = sep then [] :: cur :: more else (c :: cur) :: more

/-- Split a character list at the first occurrence of a separator, if any. -/
def splitFirst (sep : Char) (l : List Char) : Option (List Char × List Char) :=
  match l with
  | [] => none
  | c :: rest =>
    if c = sep then some ([], rest)
    else
      match splitFirst sep rest with
      | none => none
      | some (a, b) => some (c :: a, b)

/-- Parse one line of run-control text as a key = value directive: drop
the comment part after a semicolon, split at the first equals sign, trim
both sides; lines without an equals sign or with an empty key are not
directives. -/
def parseDirective (line : List Char) : Option (List Char × List Char) :=
  let noComment := line.takeWhile fun c => c != ';'
  match splitFirst '=' noComment with
  | none => none
  | some (k, v) =>
    let key := trimChars k
    if key = [] then none else some (key, trimChars v)

/-- All directives of a run-control text, in order. -/
def directivesOf (text : String) : List (List Char × List Char) :=
  (splitOnChar '\n' text.data).filterMap parseDirective

/-- The value of the first directive with the given key, if any. -/
def lookupDirective (text : String) (key : String) : Option String :=
  match (directivesOf text).lookup key.data with
  | none => none
  | some v => some (String.mk v)

/-! ### The grompp/mdrun subprocess cell of trappe-propane.ipynb -/

/-- Exit code and captured output streams of one finished subprocess
(what Popen.communicate returns plus the eventual returncode). -/
structure ProcResult where
  exitCode : Int
  stdout : String
  stderr : String
deriving DecidableEq

/-- The external engine as an oracle: the result of running one shell
command to completion. -/
def Engine : Type := String → ProcResult

/-- Observable events of the cell, in program order: a blocking
subprocess invocation, or a file write of a complete string. -/
inductive Event where
  | invoke (cmd : String)
  | fileWrite (file : String) (content : String)
deriving DecidableEq

/-- The grompp command line of the cell. -/
def gromppCmd : String := "gmx grompp -f nvt.mdp -c out.gro -p out.top -maxwarn 1 -o nvt"

/-- The mdrun command line of the cell. -/
def mdrunCmd : String := "gmx mdrun -deffnm nvt"

/-- The whole subprocess cell as its event trace: write nvt.mdp, run
grompp to completion, write grompp.out/grompp.err from the captured
streams, then unconditionally run mdrun and write mdrun.out/mdrun.err.
The cell never inspects an exit code. -/
def runGmxCell (engine : Engine) : List Event :=
  let g := engine gromppCmd
  let m := engine mdrunCmd
  [Event.fileWrite "nvt.mdp" mdpTemplate,
   Event.invoke gromppCmd,
   Event.fileWrite "grompp.out" g.stdout,
   Event.fileWrite "grompp.err" g.stderr,
   Event.invoke mdrunCmd,
   Event.fileWrite "mdrun.out" m.stdout,
   Event.fileWrite "mdrun.err" m.stderr]

/-- A concrete engine on which the preprocess step fails: grompp exits
with status 1 and diagnostic text on stderr, every other command
succeeds. -/
def failingEngine : Engine := fun cmd =>
  if cmd = gromppCmd then
    { exitCode := 1, stdout := "", stderr := "Fatal error: number of coordinates in coordinate file does not match topology" }
  else
    { exitCode := 0, stdout := "", stderr := "" }

/-! ### The box.top writer cell of charmm-gui-gmx.ipynb -/

/-- Modelled from the spec: charmm_ethane loads files/ethane.mol2 (not in
the repository) and sets the compound name to ETHA; the particle content
stands in for the ethane coordinates, which no claim depends on. -/
def charmmEthane : Compound :=
  { name := "ETHA",
    particles :=
      [{ name := "C1", pos := (0, 0, 0) },
       { name := "C2", pos := (15/100, 0, 0) }],
    bonds := [(0, 1)] }

/-- n_ethane = 100 in the notebook. -/
def nEthane : Nat := 100

/-- Modelled from the spec: mb.fill_box(compound, n_compounds, ...)
places exactly n_compounds copies of the prototype into the box; the
randomized positions are abstracted away, only the molecule groups that
box.gro records are kept. -/
def fillBox (proto : Compound) (n : Nat) : List Compound :=
  List.replicate n proto

/-- The Molecules section content written by the box.top cell, which
formats prototype.name and n_ethane onto one line — a single entry
pairing the prototype name with the compound count. -/
def topMolecules (proto : Compound) (n : Nat) : List (String × Nat) :=
  [(proto.name, n)]

/-- The sum of the per-molecule-type counts listed in a topology file. -/
def topCountSum (entries : List (String × Nat)) : Nat :=
  (entries.map Prod.snd).sum

/-! ### The HOOMD mixture construction (part_001 replication cells) -/

/-- methane_cmpd: a compound holding the single particle _CH4. -/
def methaneCmpd : Compound :=
  { name := "Compound",
    particles := [{ name := "_CH4", pos := (0, 0, 0) }],
    bonds := [] }

/-- Modelled from the spec: the methanol compound after the two ports
(separation 0.07 each) are overlapped by force_overlap, which moves the
_OH bead along x and bonds it to _CH3. -/
def methanolCmpd : Compound :=
  { name := "Compound",
    particles :=
      [{ name := "_CH3", pos := (0, 0, 0) },
       { name := "_OH", pos := (14/100, 0, 0) }],
    bonds := [(0, 1)] }

/-- Largest z coordinate over a compound's particles (max(xyz[:, 2])). -/
def maxZ (c : Compound) : ℚ :=
  (c.particles.map fun p => p.pos.2.2).foldl max 0

/-- The HOOMD notebook's replication cells, with the scale applied to
methanol_grid left as a parameter (the notebook uses 0.4): build
methane_grid, apply it to methane; build methanol_grid, but — exactly as
in the source — apply methane_grid to methanol; translate the methanol
box above the methane box; collect the mixture. -/
def hoomdMixture (methanolScale : ℚ) : Compound :=
  let methaneGrid := gridPoints 2 2 2 (4/10)
  let methaneBox := combine (applyPattern methaneGrid methaneCmpd)
  let methanolGrid := gridPoints 2 2 2 methanolScale
  let methanolBoxRaw := combine (applyPattern methaneGrid methanolCmpd)
  let methanolBox := translateCompound methanolBoxRaw (0, 0, (11/10) * maxZ methaneBox)
  combine [methaneBox, methanolBox]

/-! ### Element inference in the typer front end -/

/-- Whether a name carries the reserved non-elemental marker: its first
character is an underscore. -/
def beginsWithUnderscore (s : String) : Bool :=
  match s.data with
  | [] => false
  | c :: _ => c = '_'

/-- Element symbols the inference step can recognize (a representative
portion of the periodic table). -/
def periodicSymbols : List String :=
  ["H", "He", "Li", "Be", "B", "C", "N", "O", "F", "Ne",
   "Na", "Mg", "Al", "Si", "P", "S", "Cl", "Ar", "K", "Ca"]

/-- Particle kind as the typer sees it: a periodic element or a custom
(coarse-grained) element. -/
inductive ChemKind where
  | element (symbol : String)
  | custom (label : String)
deriving DecidableEq

/-- Modelled from the spec: before atomtyping, elements are inferred from
particle names; a name beginning with the reserved underscore marker is
never matched against the periodic table and yields a custom element,
while other names are matched against periodic symbols. -/
def inferKind (name : String) : ChemKind :=
  if beginsWithUnderscore name then ChemKind.custom name
  else if name ∈ periodicSymbols then ChemKind.element name
  else ChemKind.custom name

/-- The rename that attaches the marker to an existing particle
(particles[1].name = "_" + particles[1].name). -/
def underscoreRename (p : Particle) : Particle :=
  { p with name := "_" ++ p.name }

/-! ### RDF accumulation (freud cells of the HOOMD notebook)

Modelled from the spec: a radial distribution function is a binned
pairwise observable; compute(system, reset=False) adds the frame's
pair-distance histogram onto the accumulator instead of replacing it.
Positions are abstracted to integer-grid coordinates so the binning is
exactly computable; bins = 50 and r_max = 2 as in the notebook, with
squared distances compared against squared bin edges in fixed point
(d² < ((i+1)·r_max/bins)² iff bins²·d² < (i+1)²·r_max²).
-/

/-- Number of histogram bins (bins = 50 in the notebook). -/
def rdfBins : Nat := 50

/-- One trajectory frame, abstracted to its particle positions on an
integer grid. -/
abbrev Frame : Type := List (ℤ × ℤ × ℤ)

/-- Squared Euclidean distance between two integer-grid positions. -/
def dist2 (p q : ℤ × ℤ × ℤ) : ℤ :=
  (p.1 - q.1) ^ 2 + (p.2.1 - q.2.1) ^ 2 + (p.2.2 - q.2.2) ^ 2

/-- The bin a squared distance falls into: the first of the 50 bins whose
upper edge squared exceeds it, none when the distance is at or beyond
r_max = 2 (fixed point: 50²·d² < (i+1)²·2²). -/
def binIndexOf (d2 : ℤ) : Option Nat :=
  (List.range rdfBins).find? fun i =>
    (rdfBins : ℤ) ^ 2 * d2 < ((i : ℤ) + 1) ^ 2 * 2 ^ 2

/-- All unordered pairs of a list, each once. -/
def allPairs : List α → List (α × α)
  | [] => []
  | x :: xs => (xs.map fun y => (x, y)) ++ allPairs xs

/-- Increment the counter at an index of a histogram. -/
def increment : List Nat → Nat → List Nat
  | [], _ => []
  | x :: xs, 0 => (x + 1) :: xs
  | x :: xs, n + 1 => x :: increment xs n

/-- The all-zero histogram: accumulator state before the first frame. -/
def zeroHist : List Nat := List.replicate rdfBins 0

/-- The pair-distance histogram of one frame. -/
def histFrame (f : Frame) : List Nat :=
  (allPairs f).foldl
    (fun acc pq =>
      match binIndexOf (dist2 pq.1 pq.2) with
      | some i => increment acc i
      | none => acc)
    zeroHist

/-- Componentwise sum of two histograms. -/
def addHist (a b : List Nat) : List Nat := List.zipWith (· + ·) a b

/-- rdf.compute(system=frame, reset=r): with reset the accumulator is
replaced by the frame's histogram, without it the frame's histogram is
added onto the accumulator. -/
def rdfCompute (st : List Nat) (f : Frame) (reset : Bool) : List Nat :=
  if reset then histFrame f else addHist st (histFrame f)

/-- The notebook's analysis loop: fold compute(..., reset=False) over the
trajectory starting from the fresh accumulator. -/
def accumulateRDF (frames : List Frame) : List Nat :=
  frames.foldl (fun st f => rdfCompute st f false) zeroHist

/-! ## Helper lemmas -/

theorem editNames_length (ps : List Particle) : (editNames ps).length = ps.length := by
  match ps with
  | [] => rfl
  | [_] => rfl
  | [_, _] => rfl
  | _ :: _ :: _ :: _ => rfl

theorem editNames_map_pos (ps : List Particle) :
    (editNames ps).map Particle.pos = ps.map Particle.pos := by
  match ps with
  | [] => rfl
  | [_] => rfl
  | [_, _] => rfl
  | _ :: _ :: _ :: _ => rfl

theorem combine_particles_length (cs : List Compound) :
    (combine cs).particles.length = (cs.map fun c => c.particles.length).sum := by
  induction cs with
  | nil => rfl
  | cons c rest ih => simp [combine, ih]

theorem combine_bonds_length (cs : List Compound) :
    (combine cs).bonds.length = (cs.map fun c => c.bonds.length).sum := by
  induction cs with
  | nil => rfl
  | cons c rest ih => simp [combine, ih]

theorem applyPattern_particle_counts (pts : List Vec3) (proto : Compound) :
    ((applyPattern pts proto).map fun c => c.particles.length).sum =
      pts.length * proto.particles.length := by
  simp [applyPattern, translateCompound, List.map_map, Function.comp_def, List.sum_const_nat]

theorem applyPattern_bond_counts (pts : List Vec3) (proto : Compound) :
    ((applyPattern pts proto).map fun c => c.bonds.length).sum =
      pts.length * proto.bonds.length := by
  simp [applyPattern, translateCompound, List.map_map, Function.comp_def, List.sum_const_nat]

theorem splitOnChar_ne_nil (sep : Char) (l : List Char) : splitOnChar sep l ≠ [] := by
  induction l with
  | nil => simp [splitOnChar]
  | cons c rest ih =>
    rcases h : splitOnChar sep rest with _ | ⟨cur, more⟩
    · simp [splitOnChar, h]
    · simp only [splitOnChar, h]
      split <;> simp

theorem splitOnChar_of_not_mem (sep : Char) (l : List Char) (h : sep ∉ l) :
    splitOnChar sep l = [l] := by
  induction l with
  | nil => rfl
  | cons c rest ih =>
    have hc : ¬c = sep := fun he => h (he ▸ List.mem_cons_self c rest)
    have hrest : sep ∉ rest := fun hm => h (List.mem_cons_of_mem c hm)
    simp [splitOnChar, ih hrest, hc]

theorem splitOnChar_cons (sep c : Char) (l : List Char) :
    splitOnChar sep (c :: l) =
      match splitOnChar sep l with
      | [] => [[]]
      | cur :: more => if c = sep then [] :: cur :: more else (c :: cur) :: more := rfl

theorem splitOnChar_append_sep (sep : Char) (a b : List Char) (h : sep ∉ a) :
    splitOnChar sep (a ++ sep :: b) = a :: splitOnChar sep b := by
  induction a with
  | nil =>
    rcases hb : splitOnChar sep b with _ | ⟨cur, more⟩
    · exact absurd hb (splitOnChar_ne_nil sep b)
    · simp [splitOnChar, hb]
  | cons c rest ih =>
    have hc : ¬c = sep := fun he => h (he ▸ List.mem_cons_self c rest)
    have hrest : sep ∉ rest := fun hm => h (List.mem_cons_of_mem c hm)
    show splitOnChar sep (c :: (rest ++ sep :: b)) = (c :: rest) :: splitOnChar sep b
    rw [splitOnChar_cons, ih hrest]
    simp [hc]

theorem splitOnChar_joinLines (sep : Char) (ls : List (List Char)) (hne : ls ≠ [])
    (h : ∀ l ∈ ls, sep ∉ l) : splitOnChar sep (joinLines sep ls) = ls := by
  induction ls with
  | nil => exact absurd rfl hne
  | cons l tail ih =>
    cases tail with
    | nil =>
      show splitOnChar sep (joinLines sep [l]) = [l]
      exact splitOnChar_of_not_mem sep l (h l (List.mem_cons_self l []))
    | cons next rest =>
      show splitOnChar sep (l ++ sep :: joinLines sep (next :: rest)) = l :: next :: rest
      rw [splitOnChar_append_sep sep l _ (h l (List.mem_cons_self l _))]
      rw [ih (by simp) fun x hx => h x (List.mem_cons_of_mem l hx)]

theorem directivesOf_mdpTemplate :
    directivesOf mdpTemplate = (mdpLines.map String.data).filterMap parseDirective := by
  show (splitOnChar '\n' (joinLines '\n' (mdpLines.map String.data))).filterMap parseDirective = _
  rw [splitOnChar_joinLines '\n' (mdpLines.map String.data) (by decide) (by decide)]

theorem increment_length (l : List Nat) (i : Nat) : (increment l i).length = l.length := by
  induction l generalizing i with
  | nil => rfl
  | cons x xs ih =>
    cases i with
    | zero => rfl
    | succ n => simp [increment, ih]

theorem histFrame_length (f : Frame) : (histFrame f).length = rdfBins := by
  have key : ∀ (ps : List ((ℤ × ℤ × ℤ) × (ℤ × ℤ × ℤ))) (acc : List Nat),
      (ps.foldl
        (fun acc pq =>
          match binIndexOf (dist2 pq.1 pq.2) with
          | some i => increment acc i
          | none => acc) acc).length = acc.length := by
    intro ps
    induction ps with
    | nil => intro acc; rfl
    | cons p rest ih =>
      intro acc
      rw [List.foldl_cons, ih]
      rcases hb : binIndexOf (dist2 p.1 p.2) with _ | i <;> simp [hb, increment_length]
  have := key (allPairs f) zeroHist
  simpa [histFrame, zeroHist] using this

theorem addHist_zero_left (a : List Nat) (h : a.length = rdfBins) :
    addHist zeroHist a = a := by
  have key : ∀ (n : Nat) (l : List Nat), l.length = n →
      List.zipWith (· + ·) (List.replicate n 0) l = l := by
    intro n
    induction n with
    | zero =>
      intro l hl
      simp [List.length_eq_zero.mp hl]
    | succ m ih =>
      intro l hl
      cases l with
      | nil => simp at hl
      | cons x xs =>
        simp only [List.replicate_succ, List.zipWith_cons_cons, Nat.zero_add]
        rw [ih xs (by simpa using hl)]
  exact key rdfBins a h

theorem addHist_eq_right (a b : List Nat) (hlen : a.length = b.length)
    (h : addHist a b = b) : a = List.replicate a.length 0 := by
  induction a generalizing b with
  | nil => rfl
  | cons x xs ih =>
    cases b with
    | nil => simp at hlen
    | cons y ys =>
      simp only [addHist, List.zipWith_cons_cons, List.cons.injEq] at h
      have hx : x = 0 := by omega
      have hxs : xs = List.replicate xs.length 0 := by
        apply ih ys (by simpa using hlen)
        exact h.2
      simp only [List.length_cons, List.replicate_succ, hx]
      exact congrArg (0 :: ·) hxs

/-! ## Claim theorems -/

/-- C1: the grompp/mdrun cell never inspects the preprocess exit status:
on an engine where grompp exits with status 1, the trace still contains
the mdrun invocation (at position 4, right after the grompp log writes),
and the captured grompp stderr is written to grompp.err rather than being
surfaced as an error that aborts the run step. -/
theorem c1_failed_grompp_still_invokes_mdrun :
    (failingEngine gromppCmd).exitCode = 1 ∧
    (runGmxCell failingEngine)[4]? = some (Event.invoke mdrunCmd) ∧
    (runGmxCell failingEngine)[3]? =
      some (Event.fileWrite "grompp.err" (failingEngine gromppCmd).stderr) := by
  refine ⟨rfl, ?_, ?_⟩ <;> rfl

/-- C2: starting from any 3-particle compound with no bonds, the edit
cell adds the two sequential bonds and 2×2×2 lattice replication at scale
0.4 yields a component with exactly 24 particles and 16 bonds. -/
theorem c2_lattice_replication_counts (c : Compound)
    (h3 : c.particles.length = 3) (hb : c.bonds = []) :
    (replicateGrid (editCell c)).particles.length = 24 ∧
    (replicateGrid (editCell c)).bonds.length = 16 := by
  have hpl : (editCell c).particles.length = 3 := by
    show (editNames c.particles).length = 3
    rw [editNames_length, h3]
  have hbl : (editCell c).bonds.length = 2 := by
    show (c.bonds ++ [(0, 1), (1, 2)]).length = 2
    simp [hb]
  have hpts : (gridPoints 2 2 2 (4/10)).length = 8 := rfl
  constructor
  · rw [replicateGrid, combine_particles_length, applyPattern_particle_counts, hpts, hpl]
  · rw [replicateGrid, combine_bonds_length, applyPattern_bond_counts, hpts, hbl]

/-- C2 witness: the modelled propane prototype satisfies the hypotheses
and the replicated component has 24 particles and 16 bonds. -/
theorem c2_lattice_replication_counts_witness :
    propanePrototype.particles.length = 3 ∧ propanePrototype.bonds = [] ∧
    ((replicateGrid (editCell propanePrototype)).particles.length = 24 ∧
     (replicateGrid (editCell propanePrototype)).bonds.length = 16) :=
  ⟨rfl, rfl, c2_lattice_replication_counts propanePrototype rfl rfl⟩

/-- C3: the rendered run-control output carries nsteps = 100000,
dt = 0.002 and ref_t = 300 on their directive lines, and every directive
other than those three agrees with the default baked into the fixed
template text. -/
theorem c3_mdp_directive_values :
    lookupDirective renderedMdp "nsteps" = some "100000" ∧
    lookupDirective renderedMdp "dt" = some "0.002" ∧
    lookupDirective renderedMdp "ref_t" = some "300" ∧
    ∀ key : String, key ≠ "nsteps" → key ≠ "dt" → key ≠ "ref_t" →
      lookupDirective renderedMdp key = lookupDirective mdpTemplate key := by
  refine ⟨?_, ?_, ?_, fun _ _ _ _ => rfl⟩ <;>
    · show lookupDirective mdpTemplate _ = _
      rw [lookupDirective, directivesOf_mdpTemplate]
      decide

/-- C3 witness: the integrator directive is not one of the three override
keys and agrees between the rendered output and the template. -/
theorem c3_mdp_directive_values_witness :
    ("integrator" : String) ≠ "nsteps" ∧ ("integrator" : String) ≠ "dt" ∧
    ("integrator" : String) ≠ "ref_t" ∧
    lookupDirective renderedMdp "integrator" = lookupDirective mdpTemplate "integrator" :=
  ⟨by decide, by decide, by decide,
   c3_mdp_directive_values.2.2.2 "integrator" (by decide) (by decide) (by decide)⟩

/-- C4: any particle whose name begins with the reserved underscore
marker is inferred as a custom (non-elemental) kind, and so is the result
of the rename that attaches the marker, regardless of the rest of the
name. -/
theorem c4_underscore_marker_custom_kind (p : Particle)
    (h : beginsWithUnderscore p.name = true) :
    inferKind p.name = ChemKind.custom p.name ∧
    inferKind (underscoreRename p).name = ChemKind.custom (underscoreRename p).name := by
  constructor
  · simp [inferKind, h]
  · have hu : beginsWithUnderscore (underscoreRename p).name = true := by
      show beginsWithUnderscore ("_" ++ p.name) = true
      have hdata : ("_" ++ p.name).data = '_' :: p.name.data := by
        cases p.name with
        | mk l => rfl
      simp [beginsWithUnderscore, hdata]
    simp [inferKind, hu]

/-- C4 witness: the name _C begins with the marker and is typed custom
even though C (its unmarked remainder) is a periodic element symbol. -/
theorem c4_underscore_marker_custom_kind_witness :
    beginsWithUnderscore "_C" = true ∧ "C" ∈ periodicSymbols ∧
    inferKind "_C" = ChemKind.custom "_C" :=
  ⟨by decide, by decide,
   (c4_underscore_marker_custom_kind { name := "_C", pos := (0, 0, 0) } (by decide)).1⟩

/-- C5: the per-molecule-type counts written to the topology file sum to
the number of molecule groups placed in the box for every prototype and
count; concretely box.top lists (ETHA, 100) and box.gro holds 100
molecule groups, matching n_compounds = 100. -/
theorem c5_top_counts_match_box :
    (∀ (proto : Compound) (n : Nat),
      topCountSum (topMolecules proto n) = (fillBox proto n).length) ∧
    topMolecules charmmEthane nEthane = [("ETHA", 100)] ∧
    (fillBox charmmEthane nEthane).length = 100 := by
  refine ⟨fun proto n => ?_, rfl, by simp [fillBox, nEthane]⟩
  simp [topCountSum, topMolecules, fillBox]

/-- C6: with reset = False the accumulator persists across frames — the
two-frame result is the componentwise sum of both frame histograms — and
whenever the first frame contributes at all, the two-frame result differs
from the result over only the final frame. -/
theorem c6_rdf_accumulation_persists (f1 f2 : Frame)
    (h : histFrame f1 ≠ zeroHist) :
    accumulateRDF [f1, f2] = addHist (histFrame f1) (histFrame f2) ∧
    accumulateRDF [f1, f2] ≠ accumulateRDF [f2] := by
  have l1 := histFrame_length f1
  have l2 := histFrame_length f2
  have e2 : accumulateRDF [f2] = histFrame f2 := by
    show rdfCompute zeroHist f2 false = histFrame f2
    simp only [rdfCompute, Bool.false_eq_true, if_false]
    exact addHist_zero_left _ l2
  have e12 : accumulateRDF [f1, f2] = addHist (histFrame f1) (histFrame f2) := by
    show rdfCompute (rdfCompute zeroHist f1 false) f2 false = _
    simp only [rdfCompute, Bool.false_eq_true, if_false]
    rw [addHist_zero_left _ l1]
  refine ⟨e12, ?_⟩
  rw [e12, e2]
  intro heq
  have hz := addHist_eq_right (histFrame f1) (histFrame f2) (l1.trans l2.symm) heq
  rw [l1] at hz
  exact h hz

/-- C6 witness: a first frame with one particle pair inside r_max has a
nonzero histogram, and accumulating it with a second (empty) frame
differs from analyzing the second frame alone. -/
theorem c6_rdf_accumulation_persists_witness :
    histFrame [(0, 0, 0), (1, 0, 0)] ≠ zeroHist ∧
    accumulateRDF [[(0, 0, 0), (1, 0, 0)], []] ≠ accumulateRDF [[]] :=
  ⟨by decide, (c6_rdf_accumulation_persists [(0, 0, 0), (1, 0, 0)] [] (by decide)).2⟩

/-- C7: for every engine, the subprocess cell's event trace runs grompp
to completion, then writes its complete captured stdout and stderr
verbatim to grompp.out and grompp.err, then runs mdrun to completion and
writes its streams verbatim to mdrun.out and mdrun.err — each log write
strictly after the owning invocation has returned. -/
theorem c7_subprocess_trace_verbatim_logs (e : Engine) :
    runGmxCell e =
      [Event.fileWrite "nvt.mdp" mdpTemplate,
       Event.invoke gromppCmd,
       Event.fileWrite "grompp.out" (e gromppCmd).stdout,
       Event.fileWrite "grompp.err" (e gromppCmd).stderr,
       Event.invoke mdrunCmd,
       Event.fileWrite "mdrun.out" (e mdrunCmd).stdout,
       Event.fileWrite "mdrun.err" (e mdrunCmd).stderr] := rfl

/-- C8: the methanol replication cell applies methane_grid, so the
mixture system is the same for every scale given to methanol_grid —
methanol_grid and its scaling have no influence on the output. -/
theorem c8_methanol_grid_has_no_influence :
    ∀ s1 s2 : ℚ, hoomdMixture s1 = hoomdMixture s2 := fun _ _ => rfl

/-- C9: on any compound with at least the three indexed particles, the
edit cell preserves the particle count, the particle ordering and every
particle's position, and changes only name tags and the bond list (which
grows by exactly the bonds (0,1) and (1,2)). -/
theorem c9_edit_cell_frame_effect (c : Compound) (h : 3 ≤ c.particles.length) :
    (editCell c).particles.length = c.particles.length ∧
    (editCell c).particles.map Particle.pos = c.particles.map Particle.pos ∧
    (editCell c).bonds = c.bonds ++ [(0, 1), (1, 2)] :=
  ⟨editNames_length c.particles, editNames_map_pos c.particles, rfl⟩

/-- C9 witness: the propane prototype has three particles and the edit
cell leaves its count, ordering and positions unchanged while appending
the two bonds. -/
theorem c9_edit_cell_frame_effect_witness :
    3 ≤ propanePrototype.particles.length ∧
    ((editCell propanePrototype).particles.length = propanePrototype.particles.length ∧
     (editCell propanePrototype).particles.map Particle.pos =
       propanePrototype.particles.map Particle.pos ∧
     (editCell propanePrototype).bonds = propanePrototype.bonds ++ [(0, 1), (1, 2)]) :=
  ⟨by decide, c9_edit_cell_frame_effect propanePrototype (by decide)⟩

/-- C10: write_gmx_mdp writes one fixed constant text — the content is
identical for all filenames, the single write targets the given filename,
and the text begins with a newline immediately followed by the title
directive. -/
theorem c10_write_gmx_mdp_constant :
    (∀ f1 f2 : String, (writeGmxMdp f1).2 = (writeGmxMdp f2).2) ∧
    (∀ f : String, writeGmxMdp f = (f, mdpTemplate)) ∧
    mdpTemplate.data.take 6 = '\n' :: "title".data :=
  ⟨fun _ _ => rfl, fun _ => rfl, rfl⟩

end MosdefWorkflows
